import Mathlib

/-!
Verification of the agent core of this repository against its specification.

The development shallowly embeds, in Lean, the parts of the source that the
checked properties speak about:

* `backend/services/tool_masking_service.py` — the static tool catalog
  (`ALL_TOOLS`), the agent-state machine, `get_available_tools`,
  `validate_action` and `get_tool_definitions`;
* `backend/services/enhanced_agent_service.py` — the action-protocol parser
  `_parse_actions` (Python regexes are translated into explicit, executable
  scanning functions with the same matching semantics, including greedy and
  lazy backtracking and the `$`-before-trailing-newline rule),
  `_extract_reflection`, and the `execute_task` worker loop (external
  collaborators — sandbox, planner, completion provider, effectors — become
  explicit oracles; `yield`ed events become a returned event list);
* `backend/services/agent_orchestrator.py` — `delegate_task`,
  `execute_sequential` and `_aggregate_results` (the executor coroutine
  becomes an oracle function, `datetime.now()` an oracle string).

Python dicts with string keys are embedded as association lists, preserving
insertion order; Python sets of enum members are embedded as lists in the
order the source literal writes them.
-/

namespace Daytona

/-! ## Agent states (`tool_masking_service.AgentState`) -/

/-- Embeds `AgentState` — agent execution states, determining available tools. -/
inductive AgentState where
  | planning
  | executing
  | verifying
  | browsing
  | learning
  | idle
deriving DecidableEq, Repr, Fintype

/-- The `.value` string of each `AgentState` enum member. -/
def AgentState.value : AgentState → String
  | .planning => "planning"
  | .executing => "executing"
  | .verifying => "verifying"
  | .browsing => "browsing"
  | .learning => "learning"
  | .idle => "idle"

/-! ## The static tool catalog (`ToolMaskingService.ALL_TOOLS`) -/

/-- One entry of `ALL_TOOLS`: a tool definition. `states` is the Python set
of allowed states, written in the order of the source literal. -/
structure ToolDef where
  name : String
  description : String
  parameters : List String
  format : String
  states : List AgentState
deriving DecidableEq, Repr

/-- Embeds `ALL_TOOLS`, in dict insertion order. -/
def allTools : List (String × ToolDef) :=
  [ ("CREATE_FILE",
     { name := "CREATE_FILE"
       description := "Create or overwrite a file in the workspace"
       parameters := ["PATH", "CONTENT"]
       format := "ACTION: CREATE_FILE\nPATH: /workspace/file.py\nCONTENT:\n[content]\n---END---"
       states := [.executing] }),
    ("READ_FILE",
     { name := "READ_FILE"
       description := "Read contents of a file"
       parameters := ["PATH"]
       format := "ACTION: READ_FILE\nPATH: /workspace/file.py\n---END---"
       states := [.planning, .executing, .verifying, .learning] }),
    ("EXECUTE",
     { name := "EXECUTE"
       description := "Execute a shell command in the sandbox"
       parameters := ["COMMAND"]
       format := "ACTION: EXECUTE\nCOMMAND: python test.py\n---END---"
       states := [.executing, .verifying] }),
    ("LIST_FILES",
     { name := "LIST_FILES"
       description := "List files in a directory"
       parameters := ["PATH"]
       format := "ACTION: LIST_FILES\nPATH: /workspace\n---END---"
       states := [.planning, .executing, .verifying, .learning] }),
    ("UPDATE_TODO",
     { name := "UPDATE_TODO"
       description := "Update task progress tracking (todo.md pattern)"
       parameters := ["CONTENT"]
       format := "ACTION: UPDATE_TODO\nCONTENT:\n## Progress\n- ✅ Done\n- 🔄 In progress\n---END---"
       states := [.planning, .executing] }),
    ("VERIFY",
     { name := "VERIFY"
       description := "Verify that an action worked correctly"
       parameters := ["WHAT", "HOW"]
       format := "ACTION: VERIFY\nWHAT: The script runs\nHOW: python test.py\n---END---"
       states := [.verifying] }),
    ("BROWSER",
     { name := "BROWSER"
       description := "Interact with web browser for research and automation"
       parameters := ["TASK"]
       format := "ACTION: BROWSER\nTASK: Search for 'python tutorials'\n---END---"
       states := [.browsing, .executing] }),
    ("SEARCH_WEB",
     { name := "SEARCH_WEB"
       description := "Search the web for information (knowledge agent)"
       parameters := ["QUERY", "MAX_RESULTS"]
       format := "ACTION: SEARCH_WEB\nQUERY: latest python best practices\nMAX_RESULTS: 5\n---END---"
       states := [.planning, .executing, .learning] }),
    ("THINK",
     { name := "THINK"
       description := "Internal reasoning and planning (no action taken)"
       parameters := ["THOUGHT"]
       format := "ACTION: THINK\nTHOUGHT: I need to analyze the requirements first\n---END---"
       states := [.planning, .executing, .verifying, .learning] }),
    ("DELEGATE",
     { name := "DELEGATE"
       description := "Delegate subtask to specialized agent"
       parameters := ["AGENT_TYPE", "TASK"]
       format := "ACTION: DELEGATE\nAGENT_TYPE: knowledge\nTASK: Research React hooks\n---END---"
       states := [.executing] }),
    ("TASK_COMPLETED",
     { name := "TASK_COMPLETED"
       description := "Mark task as completed with summary"
       parameters := ["SUMMARY", "REFLECTION"]
       format := "TASK_COMPLETED: [summary]\n\nREFLECTION:\n- What worked: [...]\n---END---"
       states := [.executing, .learning] }) ]

/-- Dict lookup `ALL_TOOLS[action]` (as `ALL_TOOLS.get`): first entry whose
key equals the action name. -/
def lookupTool (action : String) : List (String × ToolDef) → Option ToolDef
  | [] => none
  | (k, td) :: rest => if k = action then some td else lookupTool action rest

/-- Lookup `action in ALL_TOOLS`, resolved to its definition. -/
def findTool (action : String) : Option ToolDef :=
  lookupTool action allTools

/-- Embeds that `ToolMaskingService.__init__` sets `current_state = AgentState.IDLE`. -/
def initialState : AgentState := AgentState.idle

/-- Embeds `get_available_tools`: names of the tools whose `states` set contains the
current state, in catalog order (the source returns them as a set built by
iterating the dict in insertion order). -/
def get_available_tools (current : AgentState) : List String :=
  (allTools.filter (fun p => p.2.states.contains current)).map (fun p => p.1)

/-- Embeds `validate_action`: the `(is_valid, error_message)` pair for an action name in the
current state. -/
def validate_action (action : String) (current : AgentState) : Bool × Option String :=
  match findTool action with
  | none => (false, some ("Unknown action: " ++ action))
  | some td =>
    if (get_available_tools current).contains action then
      (true, none)
    else
      (false, some ("Action " ++ action ++ " not available in state " ++ current.value ++
        ". Available in: " ++ String.intercalate ", " (td.states.map AgentState.value)))

/-! ## `get_tool_definitions` (catalog rendering) -/

/-- The data of one rendered catalog entry: 1-based index, tool name, the
availability marker for the rendered state, description and format. -/
structure CatalogEntry where
  index : Nat
  name : String
  availability : String
  description : String
  format : String
deriving DecidableEq, Repr

/-- The per-tool data of `get_tool_definitions`: every tool of `ALL_TOOLS`
in order, with `✅` when available in the rendered state and `⛔` otherwise. -/
def renderEntries (state : AgentState) : List CatalogEntry :=
  (List.enumFrom 1 allTools).map (fun p =>
    { index := p.1
      name := p.2.1
      availability := if (get_available_tools state).contains p.2.1 then "✅" else "⛔"
      description := p.2.2.description
      format := p.2.2.format })

/-- The three lines `get_tool_definitions` appends per tool. -/
def entryLines (e : CatalogEntry) : List String :=
  ["\n" ++ toString e.index ++ ". " ++ e.name ++ " " ++ e.availability,
   "   Description: " ++ e.description,
   "   Format:\n   " ++ e.format]

/-- Embeds `get_tool_definitions(state)`: the full catalog listing. This is the
text whose tool names and descriptions stay identical across states. -/
def get_tool_definitions (state : AgentState) : String :=
  String.intercalate "\n" ("AVAILABLE ACTIONS:" :: ((renderEntries state).map entryLines).flatten)

/-- A rendered entry without its availability marker. -/
def CatalogEntry.dropMarker (e : CatalogEntry) : Nat × String × String × String :=
  (e.index, e.name, e.description, e.format)

/-! ## Action protocol parser (`enhanced_agent_service._parse_actions`)

The Python regexes are translated into explicit scanning functions over
`List Char` with the same matching semantics (leftmost match, greedy `\s*`
with backtracking, lazy `(.*?)`/`(.+?)`, `$` matching at the end or before a
newline that ends the text, `re.IGNORECASE` and `re.DOTALL` where the source
sets them). The source text is ASCII, so `\s`, `\w` and case folding are
modelled on ASCII characters. -/

/-- Python `\s` (and `str.strip()`is whitespace) on ASCII text. -/
def pyWhite : Char → Bool
  | ' ' | '\t' | '\n' | '\r' | '\x0b' | '\x0c' => true
  | _ => false

/-- Python `\w` on ASCII text: letters, digits, underscore. -/
def wordChar (c : Char) : Bool := c.isAlpha || c.isDigit || c == '_'

/-- Python `str.strip()`: drop whitespace from both ends. -/
def pyStrip (cs : List Char) : List Char :=
  ((cs.dropWhile pyWhite).reverse.dropWhile pyWhite).reverse

def strOf (cs : List Char) : String := String.mk cs

/-- Case-sensitive literal match at the start of the text. -/
def startsWithL : List Char → List Char → Bool
  | [], _ => true
  | _ :: _, [] => false
  | p :: ps, c :: cs => p == c && startsWithL ps cs

/-- Case-insensitive (`re.IGNORECASE`) literal match at the start of the text. -/
def startsWithCI : List Char → List Char → Bool
  | [], _ => true
  | _ :: _, [] => false
  | p :: ps, c :: cs => p.toLower == c.toLower && startsWithCI ps cs

/-- Python `sub in s`: substring containment. -/
def containsSub (sub : List Char) : List Char → Bool
  | [] => startsWithL sub []
  | c :: cs => startsWithL sub (c :: cs) || containsSub sub cs

/-- Substring containment up to case: `sub in s.lower()` for a lowercase
literal `sub`. -/
def containsSubCI (sub : List Char) : List Char → Bool
  | [] => startsWithCI sub []
  | c :: cs => startsWithCI sub (c :: cs) || containsSubCI sub cs

/-- The lazy `(.*?)(?=ACTION:|---END---|$)` of the block pattern: the
content stops at the first position where `ACTION:` or `---END---` begins
(case-insensitively — the pattern carries `re.IGNORECASE`), at the end of
the text, or — `$` — just before a newline that ends the text.  Returns the
content together with the remaining text at the stop position, where
`re.finditer` resumes. -/
def blockEnd : List Char → List Char × List Char
  | [] => ([], [])
  | c :: cs =>
    if startsWithCI "ACTION:".data (c :: cs) || startsWithCI "---END---".data (c :: cs) then
      ([], c :: cs)
    else if c == '\n' && cs.isEmpty then
      ([], [c])
    else
      let r := blockEnd cs
      (c :: r.1, r.2)

/-- Embeds `re.finditer` over `ACTION:\s*(\w+)(.*?)(?=ACTION:|---END---|$)` with
`re.DOTALL | re.IGNORECASE`: successive non-overlapping matches, scanning
left to right.  A position where `ACTION:` is not followed, after optional
whitespace, by at least one word character is no match, and the scan resumes
one character later.  The action name is uppercased as in the source
(`group(1).strip().upper()`; the strip is the identity on a `\w+` group).
`fuel` bounds the recursion; `scanBlocks` supplies more than the text's
length, which suffices because every step consumes at least one character. -/
def scanBlocksF : Nat → List Char → List (List Char × List Char)
  | 0, _ => []
  | _, [] => []
  | fuel + 1, c :: cs =>
    if startsWithCI "ACTION:".data (c :: cs) then
      let afterWs := ((c :: cs).drop 7).dropWhile pyWhite
      let name := afterWs.takeWhile wordChar
      if name.isEmpty then
        scanBlocksF fuel cs
      else
        let r := blockEnd (afterWs.drop name.length)
        (name.map Char.toUpper, r.1) :: scanBlocksF fuel r.2
    else
      scanBlocksF fuel cs

/-- All `(NAME, raw content)` blocks of a message. -/
def scanBlocks (cs : List Char) : List (List Char × List Char) :=
  scanBlocksF (cs.length + 1) cs

/-- Backtracking for `LABEL:\s*(.+?)(?:\n|$)` after the label, where `.`
does not match a newline: `\s*` greedily takes `k` characters and shrinks
until the lazy `(.+?)` can take at least one non-newline character, which
then extends to the next newline or the end. -/
def fieldTry (t : List Char) : Nat → Option (List Char)
  | 0 =>
    match t with
    | [] => none
    | c :: _ => if c == '\n' then none else some (t.takeWhile (fun d => d != '\n'))
  | k + 1 =>
    match t.drop (k + 1) with
    | [] => fieldTry t k
    | c :: rest =>
      if c == '\n' then fieldTry t k
      else some ((c :: rest).takeWhile (fun d => d != '\n'))

def fieldAttempt (t : List Char) : Option (List Char) :=
  fieldTry t (t.takeWhile pyWhite).length

/-- As `fieldTry` but under `re.DOTALL` (the `BROWSER` `TASK:` search),
where `.` also matches newlines: the lazy group takes one character of any
kind and extends to the next newline or the end. -/
def fieldTryDot (t : List Char) : Nat → Option (List Char)
  | 0 =>
    match t with
    | [] => none
    | c :: rest => some (c :: rest.takeWhile (fun d => d != '\n'))
  | k + 1 =>
    match t.drop (k + 1) with
    | [] => fieldTryDot t k
    | c :: rest => some (c :: rest.takeWhile (fun d => d != '\n'))

def fieldAttemptDot (t : List Char) : Option (List Char) :=
  fieldTryDot t (t.takeWhile pyWhite).length

/-- Backtracking for `CONTENT:\s*\n(.*)` under `re.DOTALL`: `\s*` greedily
shrinks until it ends just before a newline, and the group takes everything
after that newline. -/
def contentTry (t : List Char) : Nat → Option (List Char)
  | 0 =>
    match t with
    | '\n' :: rest => some rest
    | _ => none
  | k + 1 =>
    match t.drop (k + 1) with
    | '\n' :: rest => some rest
    | _ => contentTry t k

def contentAttempt (t : List Char) : Option (List Char) :=
  contentTry t (t.takeWhile pyWhite).length

/-- Embeds `MAX_RESULTS:\s*(\d+)` after the label: whitespace, then at least one
digit (no shorter `\s*` can help, a whitespace character is no digit). -/
def digitsAttempt (t : List Char) : Option (List Char) :=
  let ds := (t.dropWhile pyWhite).takeWhile Char.isDigit
  if ds.isEmpty then none else some ds

/-- The lookahead `(?=\n---END---|$)` of the `DELEGATE` `TASK:` search. -/
def delegStop (u : List Char) : Bool :=
  startsWithL "\n---END---".data u || u.isEmpty || u == ['\n']

/-- Lazy `(.+?)` under `re.DOTALL` up to a lookahead: consume one character,
then extend until the lookahead holds on the rest. -/
def lazyTake (stop : List Char → Bool) : List Char → List Char
  | [] => []
  | c :: cs => c :: (if stop cs then [] else lazyTake stop cs)

/-- Backtracking for `TASK:\s*(.+?)(?=\n---END---|$)` under `re.DOTALL`. -/
def delegTry (t : List Char) : Nat → Option (List Char)
  | 0 =>
    match t with
    | [] => none
    | c :: cs => some (lazyTake delegStop (c :: cs))
  | k + 1 =>
    match t.drop (k + 1) with
    | [] => delegTry t k
    | c :: cs => some (lazyTake delegStop (c :: cs))

def delegAttempt (t : List Char) : Option (List Char) :=
  delegTry t (t.takeWhile pyWhite).length

/-- Embeds `re.search` for a literal label followed by a field pattern: try each
occurrence of the label from the left, returning the group of the first
occurrence whose tail the field pattern matches. -/
def searchField (label : List Char) (attempt : List Char → Option (List Char)) :
    List Char → Option (List Char)
  | [] => none
  | c :: cs =>
    if startsWithL label (c :: cs) then
      match attempt ((c :: cs).drop label.length) with
      | some g => some g
      | none => searchField label attempt cs
    else searchField label attempt cs

/-- A parsed action: the Python dict, as an association list in insertion
order.  Non-string values are rendered as strings: `max_results` as its
decimal numeral, `agent_type` as the `AgentType` member's value string. -/
abbrev ActionDict := List (String × String)

/-- Dict lookup `d.get(key)`. -/
def dictGet (key : String) : ActionDict → Option String
  | [] => none
  | (k, v) :: rest => if k = key then some v else dictGet key rest

/-- Embeds `agent_orchestrator.AgentType` — types of specialized agents. -/
inductive AgentType where
  | main
  | knowledge
  | code
  | test
  | review
  | debug
  | planner
  | browser
  | sandbox
deriving DecidableEq, Repr, Fintype

/-- The `.value` string of each `AgentType` member. -/
def AgentType.value : AgentType → String
  | .main => "main"
  | .knowledge => "knowledge"
  | .code => "code"
  | .test => "test"
  | .review => "review"
  | .debug => "debug"
  | .planner => "planner"
  | .browser => "browser"
  | .sandbox => "sandbox"

/-- The `agent_type_map` of `_parse_actions`' `DELEGATE` branch. -/
def agentTypeMap (s : String) : Option AgentType :=
  if s = "knowledge" then some .knowledge
  else if s = "planner" then some .planner
  else if s = "browser" then some .browser
  else if s = "code" then some .code
  else if s = "test" then some .test
  else if s = "review" then some .review
  else if s = "debug" then some .debug
  else none

/-- Python `int` of a nonempty digit string. -/
def natOfDigits (ds : List Char) : Nat :=
  ds.foldl (fun n c => n * 10 + (c.toNat - 48)) 0

/-- The per-block dispatch of `_parse_actions`: the action dict appended for
a block of the given (uppercased) name and stripped content, or `none` when
the block produces no action. -/
def parseBlock (aType : String) (c : List Char) : Option ActionDict :=
  if aType = "CREATE_FILE" then
    match searchField "PATH:".data fieldAttempt c, searchField "CONTENT:".data contentAttempt c with
    | some p, some ct =>
      some [("type", "CREATE_FILE"), ("path", strOf (pyStrip p)), ("content", strOf (pyStrip ct))]
    | _, _ => none
  else if aType = "READ_FILE" then
    match searchField "PATH:".data fieldAttempt c with
    | some p => some [("type", "READ_FILE"), ("path", strOf (pyStrip p))]
    | none => none
  else if aType = "EXECUTE" then
    match searchField "COMMAND:".data fieldAttempt c with
    | some m => some [("type", "EXECUTE"), ("command", strOf (pyStrip m))]
    | none => none
  else if aType = "LIST_FILES" then
    some [("type", "LIST_FILES"),
          ("path", match searchField "PATH:".data fieldAttempt c with
                   | some p => strOf (pyStrip p)
                   | none => "/workspace")]
  else if aType = "UPDATE_TODO" then
    match searchField "CONTENT:".data contentAttempt c with
    | some ct => some [("type", "UPDATE_TODO"), ("content", strOf (pyStrip ct))]
    | none => none
  else if aType = "VERIFY" then
    match searchField "WHAT:".data fieldAttempt c, searchField "HOW:".data fieldAttempt c with
    | some w, some h =>
      some [("type", "VERIFY"), ("what", strOf (pyStrip w)), ("how", strOf (pyStrip h))]
    | _, _ => none
  else if aType = "BROWSER" then
    match searchField "TASK:".data fieldAttemptDot c with
    | some t => some [("type", "BROWSER"), ("mode", "task"), ("task", strOf (pyStrip t))]
    | none =>
      match searchField "ACTION_TYPE:".data fieldAttempt c with
      | some bt =>
        some ([("type", "BROWSER"), ("mode", "structured"), ("action_type", strOf (pyStrip bt))]
          ++ (match searchField "URL:".data fieldAttempt c with
              | some u => [("url", strOf (pyStrip u))]
              | none => [])
          ++ (match searchField "SELECTOR:".data fieldAttempt c with
              | some s => [("selector", strOf (pyStrip s))]
              | none => [])
          ++ (match searchField "VALUE:".data fieldAttempt c with
              | some v => [("value", strOf (pyStrip v))]
              | none => [])
          ++ (match searchField "PATH:".data fieldAttempt c with
              | some p => [("path", strOf (pyStrip p))]
              | none => []))
      | none => none
  else if aType = "SEARCH_WEB" then
    match searchField "QUERY:".data fieldAttempt c with
    | some q =>
      some [("type", "SEARCH_WEB"), ("query", strOf (pyStrip q)),
            ("max_results", match searchField "MAX_RESULTS:".data digitsAttempt c with
                            | some ds => toString (natOfDigits ds)
                            | none => "5")]
    | none => none
  else if aType = "DELEGATE" then
    match searchField "AGENT_TYPE:".data fieldAttempt c, searchField "TASK:".data delegAttempt c with
    | some ag, some tk =>
      match agentTypeMap (strOf ((pyStrip ag).map Char.toLower)) with
      | some at_ => some [("type", "DELEGATE"), ("agent_type", at_.value), ("task", strOf (pyStrip tk))]
      | none => none
    | _, _ => none
  else
    none

/-- Embeds `_parse_actions(message)`: all actions of a completion message, in
block order; blocks that produce no action are skipped. -/
def parseActions (message : String) : List ActionDict :=
  (scanBlocks message.data).filterMap (fun b => parseBlock (strOf b.1) (pyStrip b.2))

/-! ## Reflection extraction (`enhanced_agent_service._extract_reflection`) -/

/-- The first occurrence of a (nonempty) literal, split into the text
before it and the text after it. -/
def findSplit (sep : List Char) : List Char → Option (List Char × List Char)
  | [] => none
  | c :: cs =>
    if startsWithL sep (c :: cs) then some ([], (c :: cs).drop sep.length)
    else
      match findSplit sep cs with
      | some r => some (c :: r.1, r.2)
      | none => none

/-- Python `message.split(sep)[1]` for a `sep` present in `message`: the
text between the first occurrence of `sep` and the next one (or the end);
Python splits on non-overlapping occurrences left to right. -/
def splitSecond (sep cs : List Char) : List Char :=
  match findSplit sep cs with
  | none => []
  | some r =>
    match findSplit sep r.2 with
    | some r2 => r2.1
    | none => r.2

/-- The lookahead of the reflection-item searches: one of the other three
labels begins here (case-insensitively), or `$` (the end, or just before a
newline that ends the text). -/
def reflStop (others : List (List Char)) (u : List Char) : Bool :=
  others.any (fun o => startsWithCI o u) || u.isEmpty || u == ['\n']

/-- Lazy `(.*?)` up to a lookahead: the characters before the first
position where the lookahead holds. -/
def takeUntilStop (stop : List Char → Bool) : List Char → List Char
  | [] => []
  | c :: cs => if stop (c :: cs) then [] else c :: takeUntilStop stop cs

/-- Embeds `re.search(label + "(.*?)(?=other1|other2|other3|$)", text,
re.IGNORECASE | re.DOTALL)`: the group at the first (case-insensitive)
occurrence of the label; the lazy group never fails, so no later
occurrence is tried. -/
def searchLabel (label : List Char) (others : List (List Char)) : List Char → Option (List Char)
  | [] => none
  | c :: cs =>
    if startsWithCI label (c :: cs) then
      some (takeUntilStop (reflStop others) ((c :: cs).drop label.length))
    else searchLabel label others cs

/-- The reflection dict `_extract_reflection` builds. -/
structure Reflection where
  what_worked : List String := []
  learnings : List String := []
  mistakes : List String := []
  improvements : List String := []
deriving DecidableEq, Repr

/-- Embeds `_extract_reflection(message)`. -/
def extractReflection (message : String) : Reflection :=
  if containsSub "REFLECTION:".data message.data then
    let t := splitSecond "REFLECTION:".data message.data
    let item := fun (label : String) (others : List String) =>
      if containsSubCI label.data t then
        match searchLabel label.data (others.map String.data) t with
        | some g => [strOf (pyStrip g)]
        | none => []
      else []
    { what_worked := item "what worked:" ["what i learned:", "mistakes made:", "improvements:"]
      learnings := item "what i learned:" ["what worked:", "mistakes made:", "improvements:"]
      mistakes := item "mistakes made:" ["what worked:", "what i learned:", "improvements:"]
      improvements := item "improvements:" ["what worked:", "what i learned:", "mistakes made:"] }
  else
    {}

/-! ## The worker loop (`enhanced_agent_service.execute_task`)

The loop is embedded as a function of its collaborators, given as oracles;
`yield`ed events become a returned event list, and the `set_agent_state`
calls become a returned state-transition list. -/

/-- The result of one effector call, as `_execute_action` returns it (that
method catches its own exceptions and turns them into `success = False`). -/
structure ExecRes where
  success : Bool
  error : String := ""
deriving DecidableEq, Repr

/-- The progress events `execute_task` yields.  Payloads beyond what the
checked properties need are omitted. -/
inductive Event where
  | status (msg : String)
  | phase (name : String) (state : AgentState)
  | planCreated
  | warning (msg : String)
  | iteration (i : Nat)
  | agentMessage (msg : String) (i : Nat)
  | taskCompleted (r : Reflection) (i : Nat)
  | actionRejected (aType : String) (reason : String) (i : Nat)
  | actionExecuting (aType : String) (i : Nat)
  | actionResult (aType : String) (success : Bool) (i : Nat)
  | error (e : String) (i : Nat)
  | taskTimeout (i : Nat)
  | taskFailed (e : String)
deriving DecidableEq, Repr

/-- The collaborators of one `execute_task` run, as oracles: whether the
sandbox is already initialized, and how `daytona.initialize()` would end —
its catch-all handler re-raises, so it is the one call before the loop
that can raise (`Except.error`); the `success` flag of the result dict the
planning phase produces — `create_plan` catches every exception and
returns `success=False`, and the todo `write_file` likewise returns an
error dict, so the planning phase itself never raises; the completion
provider's reply per iteration number (`Except.error` is a raised
exception, caught by the iteration's own handler); and the effector's
result per action (`_execute_action` catches its own exceptions). -/
structure LoopEnv where
  sandboxReady : Bool
  sandboxInit : Except String Unit
  planStep : Bool
  completion : Nat → Except String String
  execAction : ActionDict → ExecRes

/-- The per-action body of the execution loop: validate the action's type
against the current state (`EXECUTING` throughout the loop), reject an
invalid action without executing it, execute a valid one through the
effector.  Returns the events yielded and the actions actually executed. -/
def runActions (env : LoopEnv) (it : Nat) : List ActionDict → List Event × List ActionDict
  | [] => ([], [])
  | a :: rest =>
    let aType := (dictGet "type" a).getD ""
    let v := validate_action aType AgentState.executing
    let r := runActions env it rest
    if v.1 then
      let res := env.execAction a
      (Event.actionExecuting aType it :: Event.actionResult aType res.success it :: r.1,
       a :: r.2)
    else
      (Event.actionRejected aType (v.2.getD "") it :: r.1, r.2)

/-- The `while iteration < max_iterations` loop of `execute_task`: `fuel`
is `max_iterations - iteration`, and the returned `Nat` is the final value
of `iteration`.  A provider exception is caught by the iteration's
`try/except`, yields an `error` event and breaks.  A reply containing
`TASK_COMPLETED` yields `task_completed`, with the extracted reflection,
and breaks before any action is parsed or executed.  A reply with no
actions appends a user-turn nudge and continues. -/
def goLoop (env : LoopEnv) : Nat → Nat → List Event × List ActionDict × Nat
  | 0, iter => ([], [], iter)
  | fuel + 1, iter =>
    let it := iter + 1
    match env.completion it with
    | .error e => ([Event.iteration it, Event.error e it], [], it)
    | .ok msg =>
      if containsSub "TASK_COMPLETED".data msg.data then
        ([Event.iteration it, Event.agentMessage msg it,
          Event.taskCompleted (extractReflection msg) it], [], it)
      else
        let acts := parseActions msg
        if acts.isEmpty then
          let r := goLoop env fuel it
          (Event.iteration it :: Event.agentMessage msg it :: r.1, r.2.1, r.2.2)
        else
          let ra := runActions env it acts
          let r := goLoop env fuel it
          (Event.iteration it :: Event.agentMessage msg it :: ra.1 ++ r.1,
           ra.2 ++ r.2.1, r.2.2)

/-- What the `try:` body of `execute_task` produces before the `finally`. -/
structure BodyRes where
  events : List Event
  states : List AgentState
  executed : List ActionDict
  exc : Option String
deriving Repr

/-- The `try:` body of `execute_task`: sandbox initialization — the one
point before the loop that can raise, and it sits *before*
`set_agent_state(PLANNING)` — then phase 1 (planning; a failure is
*reported* in the result dict and degrades to direct execution, it cannot
raise), phase 2 (the iteration loop), then the `LEARNING` transition and,
when the iteration count reached the bound, the `task_timeout` outcome.
`states` records the `set_agent_state` calls in order; `exc` is the
exception escaping to the outer `except`, if any. -/
def taskBody (env : LoopEnv) (maxIterations : Nat) : BodyRes :=
  match (if env.sandboxReady then Except.ok () else env.sandboxInit) with
  | .error e =>
    { events := [Event.status "⚙️  Initializing secure sandbox..."]
      states := [], executed := [], exc := some e }
  | .ok () =>
    let initEvents := if env.sandboxReady then []
      else [Event.status "⚙️  Initializing secure sandbox...", Event.status "✅ Sandbox ready"]
    let evs2 := initEvents ++ [Event.phase "planning" .planning] ++
      (if env.planStep then [Event.planCreated, Event.status "✅ Plan created and saved to todo.md"]
       else [Event.warning "⚠️  Planning failed, proceeding with direct execution"]) ++
      [Event.phase "execution" .executing]
    let r := goLoop env maxIterations 0
    let timeoutEvents := if maxIterations ≤ r.2.2 then [Event.taskTimeout r.2.2] else []
    { events := evs2 ++ r.1 ++ timeoutEvents
      states := [.planning, .executing, .learning]
      executed := r.2.1
      exc := none }

/-- What one `execute_task` run produces over its whole lifetime. -/
structure TaskRun where
  events : List Event
  states : List AgentState
  executed : List ActionDict
deriving Repr

/-- Embeds `execute_task`: the body inside `try/except/finally`.  An exception
escaping the body yields `task_failed`; the `finally` always resets the
agent state to `IDLE`. -/
def executeTask (env : LoopEnv) (maxIterations : Nat) : TaskRun :=
  let b := taskBody env maxIterations
  { events := b.events ++ (match b.exc with | some e => [Event.taskFailed e] | none => [])
    states := b.states ++ [AgentState.idle]
    executed := b.executed }

/-! ## The delegation scheduler (`agent_orchestrator`) -/

/-- Embeds `agent_orchestrator.TaskStatus`. -/
inductive TaskStatus where
  | pending
  | in_progress
  | completed
  | failed
  | cancelled
deriving DecidableEq, Repr

/-- A Python dict value (string keys and values), insertion-ordered. -/
abbrev PyDict := List (String × String)

/-- Embeds `agent_orchestrator.DelegatedTask` (the metadata dict is omitted;
timestamps are the oracle's `now` string). -/
structure DelegatedTask where
  task_id : String
  agent_type : AgentType
  description : String
  input_data : PyDict
  status : TaskStatus := .pending
  result : Option PyDict := none
  error : Option String := none
  started_at : Option String := none
  completed_at : Option String := none
  parent_task_id : Option String := none
deriving DecidableEq, Repr

/-- The registered-agent data `delegate_task` reads. -/
structure RegisteredAgentM where
  active : Bool
deriving DecidableEq, Repr

/-- The orchestrator's collaborators as oracles: the registry
(`get_agent`), each agent's executor (`Except.error` is a raised
exception), and `datetime.now().strftime(...)`. -/
structure OrchEnv where
  agents : AgentType → Option RegisteredAgentM
  executor : AgentType → String → PyDict → Except String PyDict
  now : String

/-- Embeds `delegate_task`; `self.task_counter` is threaded explicitly.  The
registration and activity checks happen before the executor is consulted. -/
def delegate_task (env : OrchEnv) (counter : Nat) (agent_type : AgentType)
    (description : String) (input_data : PyDict) (parent_task_id : Option String) :
    DelegatedTask × Nat :=
  let counter1 := counter + 1
  let task : DelegatedTask :=
    { task_id := "task_" ++ toString counter1 ++ "_" ++ env.now
      agent_type := agent_type
      description := description
      input_data := input_data
      parent_task_id := parent_task_id }
  match env.agents agent_type with
  | none =>
    ({ task with
        status := .failed,
        error := some ("Agent " ++ agent_type.value ++ " not registered") }, counter1)
  | some agent =>
    if agent.active = false then
      ({ task with
          status := .failed,
          error := some ("Agent " ++ agent_type.value ++ " is not active") }, counter1)
    else
      match env.executor agent_type description input_data with
      | .ok result =>
        ({ task with
            status := .completed, result := some result,
            started_at := some env.now, completed_at := some env.now }, counter1)
      | .error e =>
        ({ task with
            status := .failed, error := some e,
            started_at := some env.now, completed_at := some env.now }, counter1)

/-- One element of `execute_sequential`'s task-definition list: the keys
the source reads (`input` and `strict` default to `{}` and `False`). -/
structure TaskDef where
  agent_type : AgentType
  description : String
  input : PyDict := []
  strict : Bool := false
deriving DecidableEq, Repr

/-- Embeds `execute_sequential`: delegate each task in list order, awaiting and
appending each result; after a task whose status is `FAILED` and whose
definition carries `strict`, stop. -/
def execute_sequential (env : OrchEnv) (parent_task_id : Option String) :
    List TaskDef → Nat → List DelegatedTask × Nat
  | [], counter => ([], counter)
  | td :: rest, counter =>
    let r := delegate_task env counter td.agent_type td.description td.input parent_task_id
    if r.1.status = TaskStatus.failed ∧ td.strict = true then
      ([r.1], r.2)
    else
      let rr := execute_sequential env parent_task_id rest r.2
      (r.1 :: rr.1, rr.2)

/-! ## Result aggregation (`agent_orchestrator._aggregate_results`) -/

/-- An ASCII single quote, written by code point to keep source lines
apostrophe-free. -/
def sq : String := strOf [Char.ofNat 39]

/-- Python `str()` of an optional dict result: `None` for `None`, else the
dict repr in insertion order.  This is the string the source uses as the
voting key (`str(task.result)`). -/
def pyStrResult : Option PyDict → String
  | none => "None"
  | some d =>
    "\x7b" ++
      String.intercalate ", " (d.map (fun p => sq ++ p.1 ++ sq ++ ": " ++ sq ++ p.2 ++ sq)) ++
    "\x7d"

/-- Embeds `result_counts[key] = result_counts.get(key, 0) + 1` on an
insertion-ordered dict. -/
def bumpCount (key : String) : List (String × Nat) → List (String × Nat)
  | [] => [(key, 1)]
  | (k, n) :: rest => if k = key then (k, n + 1) :: rest else (k, n) :: bumpCount key rest

/-- Python `max(items, key=lambda x: x[1])` over a nonempty sequence: one
pass that replaces the current best only on a strictly greater count, so
the first maximal item wins. -/
def pyMaxSnd (q : String × Nat) : List (String × Nat) → String × Nat
  | [] => q
  | p :: rest => pyMaxSnd (if q.2 < p.2 then p else q) rest

/-- Python `dict.__setitem__`: replace in place or append. -/
def dictSet (key val : String) : PyDict → PyDict
  | [] => [(key, val)]
  | (k, v) :: rest => if k = key then (k, val) :: rest else (k, v) :: dictSet key val rest

/-- Python `dict.update`: set every entry of `other`, in order. -/
def dictUpdate (d other : PyDict) : PyDict :=
  other.foldl (fun acc p => dictSet p.1 p.2 acc) d

/-- The `Any` value `_aggregate_results` returns, per strategy. -/
inductive AggResult where
  | ofList (l : List (Option PyDict))
  | ofStrOpt (s : Option String)
  | ofDict (d : PyDict)
deriving DecidableEq, Repr

/-- Embeds `_aggregate_results(tasks, strategy)`.  In the `vote` branch, the inner
`match counts with | [] => ...` is unreachable (the counts of a nonempty
task list are nonempty); Python's `max` would raise there. -/
def aggregate_results (tasks : List DelegatedTask) (strategy : String) : AggResult :=
  let successful := tasks.filter (fun t => t.status == TaskStatus.completed)
  if strategy = "concat" then
    .ofList (successful.map (fun t => t.result))
  else if strategy = "vote" then
    match successful with
    | [] => .ofStrOpt none
    | _ =>
      let counts := successful.foldl (fun acc t => bumpCount (pyStrResult t.result) acc) []
      .ofStrOpt (some (match counts with
                       | [] => ""
                       | p :: rest => (pyMaxSnd p rest).1))
  else if strategy = "merge" then
    .ofDict (successful.foldl
      (fun acc t => match t.result with
                    | some d => dictUpdate acc d
                    | none => acc) [])
  else
    .ofList (successful.map (fun t => t.result))

/-- The elements of a list not yet `seen`, each at its first occurrence,
in order. -/
def dedupAux (seen : List String) : List String → List String
  | [] => []
  | k :: ks => if seen.contains k then dedupAux seen ks else k :: dedupAux (seen ++ [k]) ks

/-- The distinct elements of a list, each at its first occurrence, in
order (the key order of an insertion-ordered dict built over the list). -/
def dedupFirst (keys : List String) : List String :=
  dedupAux [] keys

/-- Modelled from the spec's words for the *vote* strategy: "the most
frequent result value among successful subtasks (ties broken by encounter
order)" — the first value, in encounter order, whose occurrence count no
value exceeds; `none` when there is no successful subtask.  `keys` are the
successful subtasks' result values (as voting-key strings) in encounter
order. -/
def voteSpec (keys : List String) : Option String :=
  (dedupFirst keys).find? (fun k => keys.all (fun k2 => keys.count k2 ≤ keys.count k))

/-- The successful subtasks' voting keys, in encounter order. -/
def successKeys (tasks : List DelegatedTask) : List String :=
  (tasks.filter (fun t => t.status == TaskStatus.completed)).map (fun t => pyStrResult t.result)

/-! ## Catalog lemmas -/

theorem lookupTool_mem {a : String} {td : ToolDef} :
    ∀ {l : List (String × ToolDef)}, lookupTool a l = some td → (a, td) ∈ l := by
  intro l
  induction l with
  | nil => intro h; simp [lookupTool] at h
  | cons p rest ih =>
    obtain ⟨k, v⟩ := p
    intro h
    rw [lookupTool] at h
    split at h
    · rename_i hk
      cases h
      subst hk
      exact List.mem_cons_self _ _
    · exact List.mem_cons_of_mem _ (ih h)

theorem findTool_mem {a : String} {td : ToolDef} (h : findTool a = some td) :
    (a, td) ∈ allTools :=
  lookupTool_mem h

/-- An action with a catalog entry is available in a state exactly when the
state is in the entry's allowed set. -/
theorem contains_available_iff {a : String} {td : ToolDef}
    (h : findTool a = some td) (st : AgentState) :
    ((get_available_tools st).contains a = true ↔ st ∈ td.states) := by
  have hm : (a, td) ∈ allTools := findTool_mem h
  have hdec : ∀ p ∈ allTools, ∀ st : AgentState,
      ((get_available_tools st).contains p.1 = true ↔ st ∈ p.2.states) := by decide
  exact hdec (a, td) hm st

/-! ## Claim theorems -/

/-- C1: For every `(kind, state)` pair, `validate_action` returns ok iff
the state is in the catalog entry's allowed states for that kind; a kind
with no catalog entry is rejected with reason `Unknown action: <kind>`; a
known-but-unavailable kind is rejected with a reason that names (as
substrings) every state in which the kind is legal. -/
theorem C1_validate_action_correct (action : String) (st : AgentState) :
    ((validate_action action st).1 = true ↔
      ∃ td, findTool action = some td ∧ st ∈ td.states)
    ∧ (findTool action = none →
        validate_action action st = (false, some ("Unknown action: " ++ action)))
    ∧ (∀ td, findTool action = some td → st ∉ td.states →
        (validate_action action st).1 = false ∧
        ∀ s ∈ td.states,
          containsSub s.value.data (((validate_action action st).2.getD "").data) = true) := by
  refine ⟨?_, ?_, ?_⟩
  · cases h : findTool action with
    | none =>
      constructor
      · intro hv
        have hval : validate_action action st = (false, some ("Unknown action: " ++ action)) := by
          simp only [validate_action, h]
        rw [hval] at hv
        simp at hv
      · rintro ⟨td, htd, _⟩
        cases htd
    | some td =>
      have hiff := contains_available_iff h st
      have hv : validate_action action st =
          (if (get_available_tools st).contains action then (true, none) else
            (false, some ("Action " ++ action ++ " not available in state " ++ st.value ++
              ". Available in: " ++ String.intercalate ", " (td.states.map AgentState.value)))) := by
        simp only [validate_action, h]
      by_cases hc : (get_available_tools st).contains action = true
      · rw [hv, if_pos hc]
        exact ⟨fun _ => ⟨td, rfl, hiff.mp hc⟩, fun _ => rfl⟩
      · rw [hv, if_neg hc]
        constructor
        · intro hfalse; simp at hfalse
        · rintro ⟨td2, htd2, hst⟩
          cases htd2
          exact absurd (hiff.mpr hst) hc
  · intro h
    simp only [validate_action, h]
  · intro td h hst
    have hm : (action, td) ∈ allTools := findTool_mem h
    have hdec : ∀ p ∈ allTools, ∀ st : AgentState, st ∉ p.2.states →
        (validate_action p.1 st).1 = false ∧
        ∀ s ∈ p.2.states,
          containsSub s.value.data (((validate_action p.1 st).2.getD "").data) = true := by
      decide
    exact hdec (action, td) hm st hst

/-- C1 witness, at the spec's own example: `CREATE_FILE` in `Planning` is
rejected with a reason naming `executing`, and `EXECUTE` in `Executing` is
accepted. -/
theorem C1_witness :
    (validate_action "CREATE_FILE" AgentState.planning).1 = false ∧
    containsSub "executing".data
      (((validate_action "CREATE_FILE" AgentState.planning).2.getD "").data) = true ∧
    (validate_action "EXECUTE" AgentState.executing).1 = true := by
  have h := C1_validate_action_correct "CREATE_FILE" AgentState.planning
  have h2 := (h.2.2 _ rfl (by decide))
  exact ⟨h2.1, h2.2 AgentState.executing (by decide), by decide⟩

/-- C4: The rendered catalog contains the identical ordered sequence of
tool indices, names, descriptions and formats for any two states: the
renderings differ at most in the per-entry availability marker.  (The
rendered string is the marker-carrying entries joined in order.) -/
theorem C4_render_catalog_stable (s1 s2 : AgentState) :
    (renderEntries s1).map CatalogEntry.dropMarker =
      (renderEntries s2).map CatalogEntry.dropMarker ∧
    get_tool_definitions s1 =
      String.intercalate "\n" ("AVAILABLE ACTIONS:" :: ((renderEntries s1).map entryLines).flatten) := by
  constructor
  · revert s1 s2; decide
  · rfl

/-- C4 witness: the planning and idle renderings carry the same
marker-stripped entries. -/
theorem C4_witness :
    (renderEntries AgentState.planning).map CatalogEntry.dropMarker =
      (renderEntries AgentState.idle).map CatalogEntry.dropMarker :=
  (C4_render_catalog_stable AgentState.planning AgentState.idle).1

/-- C9: the state `IDLE` — also the initial state of a freshly constructed
service — allows no tool: no catalog entry lists it, the available set is
empty, and `validate_action` rejects every action name in it. -/
theorem C9_idle_allows_nothing :
    initialState = AgentState.idle ∧
    get_available_tools AgentState.idle = [] ∧
    (∀ td ∈ allTools, AgentState.idle ∉ td.2.states) ∧
    ∀ action : String, (validate_action action AgentState.idle).1 = false := by
  refine ⟨rfl, by decide, by decide, ?_⟩
  intro a
  cases h : findTool a with
  | none => simp [validate_action, h]
  | some td =>
    have he : get_available_tools AgentState.idle = [] := by decide
    simp [validate_action, h, he]

/-- C9 witness: even `EXECUTE` is rejected while idle. -/
theorem C9_witness : (validate_action "EXECUTE" AgentState.idle).1 = false :=
  C9_idle_allows_nothing.2.2.2 "EXECUTE"

/-! ## C2 — all-or-nothing field rule -/

/-- Required-field presence for an emitted action dict, per the catalog of
`_parse_actions` (`LIST_FILES` included: its `path` is always present,
defaulted when the block has none). -/
def requiredOk (a : ActionDict) : Bool :=
  match dictGet "type" a with
  | none => true
  | some t =>
    if t = "CREATE_FILE" then (dictGet "path" a).isSome && (dictGet "content" a).isSome
    else if t = "READ_FILE" then (dictGet "path" a).isSome
    else if t = "EXECUTE" then (dictGet "command" a).isSome
    else if t = "LIST_FILES" then (dictGet "path" a).isSome
    else if t = "UPDATE_TODO" then (dictGet "content" a).isSome
    else if t = "VERIFY" then (dictGet "what" a).isSome && (dictGet "how" a).isSome
    else if t = "SEARCH_WEB" then (dictGet "query" a).isSome
    else if t = "DELEGATE" then (dictGet "agent_type" a).isSome && (dictGet "task" a).isSome
    else true

theorem parseBlock_requiredOk {t : String} {c : List Char} {a : ActionDict}
    (h : parseBlock t c = some a) : requiredOk a = true := by
  unfold parseBlock at h
  repeat' split at h
  all_goals cases h
  all_goals rfl

/-- C2 (amended): a block of one of the seven kinds with obligatory
fields that is missing a required field — its field search over the block
content fails — is dropped entirely: `parseBlock` emits no action for it,
and since `_parse_actions` is exactly the per-block `parseBlock` filtered
over the scanned blocks, no action for that block appears in the output.
The exception is `LIST_FILES`: its block always emits an action, with
`path` defaulting to `/workspace` when the `PATH` search fails.  Finally,
no emitted action of any kind is partially constructed: each carries every
field the catalog requires for its kind. -/
theorem C2_amended_missing_required_drops :
    (∀ message : String, parseActions message =
      (scanBlocks message.data).filterMap (fun b => parseBlock (strOf b.1) (pyStrip b.2))) ∧
    (∀ c : List Char,
      (searchField "PATH:".data fieldAttempt c = none ∨
        searchField "CONTENT:".data contentAttempt c = none) →
      parseBlock "CREATE_FILE" c = none) ∧
    (∀ c : List Char, searchField "PATH:".data fieldAttempt c = none →
      parseBlock "READ_FILE" c = none) ∧
    (∀ c : List Char, searchField "COMMAND:".data fieldAttempt c = none →
      parseBlock "EXECUTE" c = none) ∧
    (∀ c : List Char, searchField "CONTENT:".data contentAttempt c = none →
      parseBlock "UPDATE_TODO" c = none) ∧
    (∀ c : List Char,
      (searchField "WHAT:".data fieldAttempt c = none ∨
        searchField "HOW:".data fieldAttempt c = none) →
      parseBlock "VERIFY" c = none) ∧
    (∀ c : List Char, searchField "QUERY:".data fieldAttempt c = none →
      parseBlock "SEARCH_WEB" c = none) ∧
    (∀ c : List Char,
      (searchField "AGENT_TYPE:".data fieldAttempt c = none ∨
        searchField "TASK:".data delegAttempt c = none) →
      parseBlock "DELEGATE" c = none) ∧
    (∀ c : List Char, (parseBlock "LIST_FILES" c).isSome = true) ∧
    (∀ c : List Char, searchField "PATH:".data fieldAttempt c = none →
      parseBlock "LIST_FILES" c = some [("type", "LIST_FILES"), ("path", "/workspace")]) ∧
    (∀ message : String, ∀ a ∈ parseActions message, requiredOk a = true) := by
  refine ⟨fun _ => rfl, ?_, ?_, ?_, ?_, ?_, ?_, ?_, ?_, ?_, ?_⟩
  · intro c h
    rcases h with h | h
    · simp [parseBlock, h]
    · cases hs : searchField "PATH:".data fieldAttempt c <;> simp [parseBlock, h, hs]
  · intro c h
    simp [parseBlock, h]
  · intro c h
    simp [parseBlock, h]
  · intro c h
    simp [parseBlock, h]
  · intro c h
    rcases h with h | h
    · simp [parseBlock, h]
    · cases hs : searchField "WHAT:".data fieldAttempt c <;> simp [parseBlock, h, hs]
  · intro c h
    simp [parseBlock, h]
  · intro c h
    rcases h with h | h
    · simp [parseBlock, h]
    · cases hs : searchField "AGENT_TYPE:".data fieldAttempt c <;> simp [parseBlock, h, hs]
  · intro c
    cases hs : searchField "PATH:".data fieldAttempt c <;> simp [parseBlock, hs]
  · intro c h
    simp [parseBlock, h]
  · intro message a ha
    rw [parseActions, List.mem_filterMap] at ha
    obtain ⟨b, _, hb⟩ := ha
    exact parseBlock_requiredOk hb

/-- C2 counterexample: a `LIST_FILES` block missing its required `PATH` is
not dropped — an action is emitted for it, with the default path. -/
theorem C2_counterexample :
    parseActions "ACTION: LIST_FILES
---END---" =
      [[("type", "LIST_FILES"), ("path", "/workspace")]] := rfl

/-- C2 witness: concrete blocks missing a required field emit nothing —
an `EXECUTE` content without `COMMAND`, a `CREATE_FILE` content with
`PATH` but no `CONTENT`, a whole `VERIFY` message missing `HOW` — and an
emitted action carries its required fields. -/
theorem C2_witness :
    parseBlock "EXECUTE" "RUN: ls".data = none ∧
    parseBlock "CREATE_FILE" "PATH: /w/a.py".data = none ∧
    parseActions "ACTION: VERIFY\nWHAT: it runs\n---END---" = [] ∧
    requiredOk [("type", "EXECUTE"), ("command", "ls")] = true := by
  have h := C2_amended_missing_required_drops
  refine ⟨h.2.2.2.1 _ (by decide), h.2.1 _ (Or.inr (by decide)), rfl, ?_⟩
  exact h.2.2.2.2.2.2.2.2.2.2 "ACTION: EXECUTE\nCOMMAND: ls\n---END---"
    [("type", "EXECUTE"), ("command", "ls")] (by decide)

/-! ## C10 — case sensitivity of the parser -/

/-- C10 counterexample: the claim's own example.  The lowercase block
`action: execute\ncommand: ls\n---END---` parses to *no* action — the
field search for `COMMAND:` is case-sensitive — while the all-uppercase
form parses to one `EXECUTE` action, so the two are not equal. -/
theorem C10_counterexample :
    parseActions "action: execute\ncommand: ls\n---END---" = [] ∧
    parseActions "ACTION: EXECUTE\nCOMMAND: ls\n---END---" =
      [[("type", "EXECUTE"), ("command", "ls")]] :=
  ⟨rfl, rfl⟩

set_option maxHeartbeats 2000000 in
/-- C10 (amended): The `ACTION` header and the action name are matched
case-insensitively and the name is normalized to uppercase, so case
variants of the header and name parse identically; but field names are
matched case-sensitively, so the claim's lowercase-field example yields no
action. -/
theorem C10_amended_header_case_insensitive :
    parseActions "action: execute\nCOMMAND: ls\n---END---" =
      parseActions "ACTION: EXECUTE\nCOMMAND: ls\n---END---" ∧
    parseActions "Action: Execute\nCOMMAND: ls\n---END---" =
      parseActions "ACTION: EXECUTE\nCOMMAND: ls\n---END---" ∧
    parseActions "aCtIoN: eXeCuTe\nCOMMAND: ls\n---END---" =
      parseActions "ACTION: EXECUTE\nCOMMAND: ls\n---END---" ∧
    parseActions "action: execute\ncommand: ls\n---END---" = [] :=
  ⟨rfl, rfl, rfl, rfl⟩

/-! ## C3 — the completion marker stops the loop -/

/-- C3: A completion reply containing the literal substring
`TASK_COMPLETED` makes the loop stop in that same iteration with the
`task_completed` outcome carrying the extracted reflection: the iteration
emits exactly the iteration, message and completion events, executes no
action from the reply, and the loop performs no further iteration
(independently of the remaining fuel). -/
theorem C3_completion_marker_stops_loop (env : LoopEnv) (fuel iter : Nat) (msg : String)
    (hmsg : env.completion (iter + 1) = Except.ok msg)
    (hmark : containsSub "TASK_COMPLETED".data msg.data = true) :
    goLoop env (fuel + 1) iter =
      ([Event.iteration (iter + 1), Event.agentMessage msg (iter + 1),
        Event.taskCompleted (extractReflection msg) (iter + 1)], [], iter + 1) := by
  rw [goLoop, hmsg]
  simp only [hmark, if_true]

def msgC3 : String :=
  "All done. TASK_COMPLETED\n\nREFLECTION:\nWhat worked: small steps\nImprovements: none needed"

def envC3 : LoopEnv :=
  { sandboxReady := true, sandboxInit := Except.ok (), planStep := true,
    completion := fun _ => Except.ok msgC3, execAction := fun _ => { success := true } }

/-- C3 witness: a concrete marker-bearing reply stops the loop at once,
with the reflection extracted and nothing executed. -/
theorem C3_witness :
    goLoop envC3 3 0 =
      ([Event.iteration 1, Event.agentMessage msgC3 1,
        Event.taskCompleted
          { what_worked := ["small steps"], learnings := [], mistakes := [],
            improvements := ["none needed"] } 1], [], 1) := by
  have h := C3_completion_marker_stops_loop envC3 2 0 msgC3 rfl (by decide)
  exact h.trans (by decide)

/-! ## C5 — cleanup transitions -/

theorem runActions_no_taskFailed (env : LoopEnv) (it : Nat) (e : String) :
    ∀ l : List ActionDict, Event.taskFailed e ∉ (runActions env it l).1 := by
  intro l
  induction l with
  | nil => simp [runActions]
  | cons a rest ih =>
    rw [runActions]
    split <;> simp_all

theorem goLoop_no_taskFailed (env : LoopEnv) (e : String) :
    ∀ fuel iter, Event.taskFailed e ∉ (goLoop env fuel iter).1 := by
  intro fuel
  induction fuel with
  | zero => intro iter; simp [goLoop]
  | succ n ih =>
    intro iter
    cases h : env.completion (iter + 1) with
    | error err => rw [goLoop, h]; simp
    | ok msg =>
      rw [goLoop, h]
      by_cases hm : containsSub "TASK_COMPLETED".data msg.data = true
      · simp [hm]
      · by_cases ha : (parseActions msg).isEmpty
        · simp [hm, ha, ih]
        · simp [hm, ha, ih, runActions_no_taskFailed]

theorem taskBody_no_taskFailed (env : LoopEnv) (n : Nat) (e : String) :
    Event.taskFailed e ∉ (taskBody env n).events := by
  rw [taskBody]
  split
  · simp
  · cases hsr : env.sandboxReady <;> cases hps : env.planStep <;> simp [goLoop_no_taskFailed]

/-- The two shapes the body of `execute_task` can end in: no escaped
exception, with the full `PLANNING, EXECUTING, LEARNING` transition
sequence — the planning phase cannot raise, so every run that passes the
sandbox initialization reaches all three transitions — or an exception
escaped from `daytona.initialize()`, which fires before
`set_agent_state(PLANNING)`, with no transition made at all. -/
theorem taskBody_shape (env : LoopEnv) (n : Nat) :
    ((taskBody env n).exc = none ∧
      (taskBody env n).states = [AgentState.planning, AgentState.executing, AgentState.learning])
    ∨ ((taskBody env n).exc ≠ none ∧ (taskBody env n).states = []) := by
  rw [taskBody]
  split
  · exact Or.inr (by simp)
  · exact Or.inl (by simp)

/-- C5 (amended): every run of the worker loop ends in the `Idle` state —
the reset is in a `finally` — and when no exception escapes the body (no
`task_failed` outcome), the run transitions `Planning, Executing, Learning,
Idle` in order; but a run that does end with the `task_failed` outcome —
which can only come from `daytona.initialize()` raising, before `Planning`
is entered, since the planning phase catches its own exceptions — makes no
transition at all before the `finally` resets to `Idle`: it skips
`Learning` (and `Planning`). -/
theorem C5_amended_cleanup (env : LoopEnv) (maxIterations : Nat) :
    (executeTask env maxIterations).states.getLast? = some AgentState.idle ∧
    ((¬ ∃ e, Event.taskFailed e ∈ (executeTask env maxIterations).events) →
      (executeTask env maxIterations).states =
        [AgentState.planning, AgentState.executing, AgentState.learning, AgentState.idle]) ∧
    ((∃ e, Event.taskFailed e ∈ (executeTask env maxIterations).events) →
      (executeTask env maxIterations).states = [AgentState.idle]) := by
  have hsh := taskBody_shape env maxIterations
  refine ⟨?_, ?_, ?_⟩
  · show ((taskBody env maxIterations).states ++ [AgentState.idle]).getLast? = some AgentState.idle
    simp
  · intro hno
    rcases hsh with ⟨hexc, hst⟩ | ⟨hexc, hst⟩
    · show (taskBody env maxIterations).states ++ [AgentState.idle] = _
      rw [hst]; rfl
    · exfalso
      obtain ⟨e, he⟩ := Option.ne_none_iff_exists'.mp hexc
      refine hno ⟨e, ?_⟩
      show Event.taskFailed e ∈ (taskBody env maxIterations).events ++ _
      rw [he]
      simp
  · rintro ⟨e, he⟩
    rcases hsh with ⟨hexc, hst⟩ | ⟨hexc, hst⟩
    · exfalso
      have heq : (executeTask env maxIterations).events = (taskBody env maxIterations).events := by
        show (taskBody env maxIterations).events ++ _ = _
        rw [hexc]
        simp
      rw [heq] at he
      exact taskBody_no_taskFailed env maxIterations e he
    · show (taskBody env maxIterations).states ++ [AgentState.idle] = _
      rw [hst]; rfl

def envC5 : LoopEnv :=
  { sandboxReady := false, sandboxInit := Except.error "Failed to initialize Daytona",
    planStep := true, completion := fun _ => Except.ok "TASK_COMPLETED",
    execAction := fun _ => { success := true } }

/-- C5 counterexample: a run whose sandbox initialization raises (the one
raise the body admits, fired before `Planning` is entered) ends with the
`task_failed` outcome and goes straight to `Idle` — `Learning` is never
entered, refuting the claim for the `Failed` outcome. -/
theorem C5_counterexample :
    (executeTask envC5 5).states = [AgentState.idle] ∧
    AgentState.learning ∉ (executeTask envC5 5).states ∧
    Event.taskFailed "Failed to initialize Daytona" ∈ (executeTask envC5 5).events := by
  refine ⟨rfl, by decide, by decide⟩

def envC5ok : LoopEnv :=
  { sandboxReady := true, sandboxInit := Except.ok (), planStep := true,
    completion := fun _ => Except.ok "TASK_COMPLETED", execAction := fun _ => { success := true } }

/-- C5 witness: a successful run ends in `Idle` having passed `Learning`. -/
theorem C5_witness :
    (executeTask envC5ok 2).states.getLast? = some AgentState.idle ∧
    (executeTask envC5ok 2).states =
      [AgentState.planning, AgentState.executing, AgentState.learning, AgentState.idle] := by
  have h := C5_amended_cleanup envC5ok 2
  refine ⟨h.1, h.2.1 ?_⟩
  rintro ⟨e, he⟩
  have heq : (executeTask envC5ok 2).events = (taskBody envC5ok 2).events := by
    show (taskBody envC5ok 2).events ++ _ = _
    rw [show (taskBody envC5ok 2).exc = none from rfl]
    simp
  rw [heq] at he
  exact taskBody_no_taskFailed envC5ok 2 e he

/-- C6: delegating to an unregistered or deactivated agent returns a
`FAILED` DelegatedTask with the descriptive error message, and the
executor oracle is never consulted: the result is identical under any
replacement executor, because the registration and activity checks come
before the executor call (before any await). -/
theorem C6_delegate_unregistered_or_inactive (env : OrchEnv) (counter : Nat)
    (atype : AgentType) (description : String) (input_data : PyDict)
    (parent : Option String)
    (h : env.agents atype = none ∨ ∃ a, env.agents atype = some a ∧ a.active = false) :
    (delegate_task env counter atype description input_data parent).1.status = TaskStatus.failed ∧
    ((env.agents atype = none →
       (delegate_task env counter atype description input_data parent).1.error =
         some ("Agent " ++ atype.value ++ " not registered")) ∧
     (∀ a, env.agents atype = some a → a.active = false →
       (delegate_task env counter atype description input_data parent).1.error =
         some ("Agent " ++ atype.value ++ " is not active"))) ∧
    (∀ exec2 : AgentType → String → PyDict → Except String PyDict,
      delegate_task env counter atype description input_data parent =
        delegate_task { env with executor := exec2 } counter atype description input_data parent) := by
  rcases h with hnone | ⟨a, ha, hact⟩
  · refine ⟨?_, ⟨?_, ?_⟩, ?_⟩
    · simp [delegate_task, hnone]
    · intro _; simp [delegate_task, hnone]
    · intro a ha; rw [hnone] at ha; cases ha
    · intro exec2; simp [delegate_task, hnone]
  · refine ⟨?_, ⟨?_, ?_⟩, ?_⟩
    · simp [delegate_task, ha, hact]
    · intro hn; rw [hn] at ha; cases ha
    · intro a2 ha2 hact2; simp [delegate_task, ha2, hact2]
    · intro exec2; simp [delegate_task, ha, hact]

/-- A registry with one deactivated agent and nothing else. -/
def orchEnvC6 : OrchEnv :=
  { agents := fun t => if t = AgentType.test then some { active := false } else none,
    executor := fun _ _ _ => Except.ok [("r", "1")], now := "20260101_000000" }

/-- C6 witness: a concrete unregistered and a concrete deactivated agent. -/
theorem C6_witness :
    (delegate_task orchEnvC6 0 AgentType.code "x" [] none).1.status = TaskStatus.failed ∧
    (delegate_task orchEnvC6 0 AgentType.code "x" [] none).1.error =
      some "Agent code not registered" ∧
    (delegate_task orchEnvC6 0 AgentType.test "y" [] none).1.status = TaskStatus.failed ∧
    (delegate_task orchEnvC6 0 AgentType.test "y" [] none).1.error =
      some "Agent test is not active" := by
  have h1 := C6_delegate_unregistered_or_inactive orchEnvC6 0 AgentType.code "x" [] none (Or.inl rfl)
  have h2 := C6_delegate_unregistered_or_inactive orchEnvC6 0 AgentType.test "y" [] none
    (Or.inr ⟨{ active := false }, rfl, rfl⟩)
  refine ⟨h1.1, ?_, h2.1, ?_⟩
  · have := h1.2.1.1 rfl
    exact this.trans (by decide)
  · have := h2.2.1.2 { active := false } rfl rfl
    exact this.trans (by decide)

/-! ## C7 — sequential strict mode -/

/-- A task definition with its `strict` flag cleared. -/
def setStrictFalse (td : TaskDef) : TaskDef := { td with strict := false }

def stopAfterFirstFail (l : List DelegatedTask) : List DelegatedTask :=
  l.takeWhile (fun t => t.status != TaskStatus.failed) ++
    (l.dropWhile (fun t => t.status != TaskStatus.failed)).take 1

/-- C7: with `strict` set on every task definition, `execute_sequential`
delegates in list order and stops after the first `FAILED` task, returning
exactly the results up to and including it (the stop-after-first-failure
truncation of the unrestricted run); with `strict` unset on every task it
returns one result per input task. -/
theorem C7_sequential_strict (env : OrchEnv) (parent : Option String)
    (tasks : List TaskDef) (counter : Nat) :
    ((∀ td ∈ tasks, td.strict = false) →
      (execute_sequential env parent tasks counter).1.length = tasks.length) ∧
    ((∀ td ∈ tasks, td.strict = true) →
      (execute_sequential env parent tasks counter).1 =
        stopAfterFirstFail
          (execute_sequential env parent (tasks.map setStrictFalse) counter).1) := by
  induction tasks generalizing counter with
  | nil => exact ⟨fun _ => rfl, fun _ => rfl⟩
  | cons td rest ih =>
    have hdel : delegate_task env counter (setStrictFalse td).agent_type
        (setStrictFalse td).description (setStrictFalse td).input parent =
        delegate_task env counter td.agent_type td.description td.input parent := rfl
    constructor
    · intro hall
      have htd : td.strict = false := hall td (List.mem_cons_self _ _)
      rw [execute_sequential, if_neg (by simp [htd])]
      have hr := (ih (delegate_task env counter td.agent_type td.description td.input parent).2).1
        (fun t ht => hall t (List.mem_cons_of_mem _ ht))
      simp [hr]
    · intro hall
      have htd : td.strict = true := hall td (List.mem_cons_self _ _)
      rw [List.map_cons, execute_sequential, execute_sequential, hdel]
      by_cases hf :
        (delegate_task env counter td.agent_type td.description td.input parent).1.status =
          TaskStatus.failed
      · rw [if_pos ⟨hf, htd⟩, if_neg (by simp [setStrictFalse])]
        rw [stopAfterFirstFail]
        rw [List.takeWhile_cons, List.dropWhile_cons]
        simp [hf]
      · rw [if_neg (by simp [hf]), if_neg (by simp [setStrictFalse])]
        have ihr := (ih (delegate_task env counter td.agent_type td.description td.input parent).2).2
          (fun t ht => hall t (List.mem_cons_of_mem _ ht))
        rw [stopAfterFirstFail, List.takeWhile_cons, List.dropWhile_cons]
        simp only [hf, bne_iff_ne, ne_eq, not_false_iff, if_true, ite_true]
        rw [List.cons_append]
        rw [ihr, stopAfterFirstFail]

def orchEnvC7 : OrchEnv :=
  { agents := fun t => if t = AgentType.review then none else some { active := true },
    executor := fun _ _ _ => Except.ok [("ok", "1")], now := "t0" }

def tasksC7 : List TaskDef :=
  [{ agent_type := .code, description := "a", strict := true },
   { agent_type := .review, description := "b", strict := true },
   { agent_type := .code, description := "c", strict := true }]

/-- C7 witness: three strict tasks with the second failing give two
results — the truncation of the three-result non-strict run. -/
theorem C7_witness :
    (execute_sequential orchEnvC7 none tasksC7 0).1.length = 2 ∧
    (execute_sequential orchEnvC7 none tasksC7 0).1 =
      stopAfterFirstFail (execute_sequential orchEnvC7 none (tasksC7.map setStrictFalse) 0).1 ∧
    (execute_sequential orchEnvC7 none (tasksC7.map setStrictFalse) 0).1.length = 3 := by
  have h := (C7_sequential_strict orchEnvC7 none tasksC7 0).2 (by decide)
  refine ⟨?_, h, ?_⟩
  · rw [h]; decide
  · have h2 := (C7_sequential_strict orchEnvC7 none (tasksC7.map setStrictFalse) 0).1 (by decide)
    rw [h2]; decide

/-! ## C8 — vote aggregation -/

theorem bumpCount_not_mem {k : String} :
    ∀ {acc : List (String × Nat)}, k ∉ acc.map Prod.fst → bumpCount k acc = acc ++ [(k, 1)] := by
  intro acc
  induction acc with
  | nil => intro _; rfl
  | cons p rest ih =>
    intro h
    obtain ⟨k1, n1⟩ := p
    simp only [List.map_cons, List.mem_cons] at h
    push_neg at h
    rw [bumpCount, if_neg (by exact fun he => h.1 he.symm), ih h.2]
    rfl

theorem bumpCount_mem {k : String} :
    ∀ {acc : List (String × Nat)}, (acc.map Prod.fst).Nodup → k ∈ acc.map Prod.fst →
      bumpCount k acc = acc.map (fun p => if p.1 = k then (p.1, p.2 + 1) else p) := by
  intro acc
  induction acc with
  | nil => intro _ h; simp at h
  | cons p rest ih =>
    intro hnd hm
    obtain ⟨k1, n1⟩ := p
    simp only [List.map_cons, List.nodup_cons] at hnd
    by_cases hk : k1 = k
    · subst hk
      rw [bumpCount, if_pos rfl]
      simp only [List.map_cons, if_pos rfl]
      congr 1
      have : ∀ p ∈ rest, (if (p : String × Nat).1 = k1 then (p.1, p.2 + 1) else p) = p := by
        intro p hp
        rw [if_neg]
        intro he
        exact hnd.1 (he ▸ List.mem_map_of_mem Prod.fst hp)
      rw [List.map_congr_left this]
      simp
    · simp only [List.map_cons, List.mem_cons] at hm
      rcases hm with hm | hm
      · exact absurd hm.symm hk
      · rw [bumpCount, if_neg hk, ih hnd.2 hm]
        simp [hk]

theorem dedupAux_mem {k : String} :
    ∀ (ks seen : List String), k ∈ dedupAux seen ks → k ∉ seen ∧ k ∈ ks := by
  intro ks
  induction ks with
  | nil => intro seen h; simp [dedupAux] at h
  | cons k2 rest ih =>
    intro seen h
    rw [dedupAux] at h
    split at h
    · rename_i hc
      obtain ⟨h1, h2⟩ := ih seen h
      exact ⟨h1, List.mem_cons_of_mem _ h2⟩
    · rename_i hc
      rcases List.mem_cons.mp h with rfl | h
      · exact ⟨fun hk => hc (List.elem_iff.mpr hk), List.mem_cons_self _ _⟩
      · obtain ⟨h1, h2⟩ := ih _ h
        simp only [List.mem_append, List.mem_singleton] at h1
        push_neg at h1
        exact ⟨h1.1, List.mem_cons_of_mem _ h2⟩

theorem countsFold_eq (ks : List String) :
    ∀ acc : List (String × Nat), (acc.map Prod.fst).Nodup →
      ks.foldl (fun a k => bumpCount k a) acc =
        acc.map (fun p => (p.1, p.2 + ks.count p.1)) ++
          (dedupAux (acc.map Prod.fst) ks).map (fun k => (k, ks.count k)) := by
  induction ks with
  | nil =>
    intro acc _
    simp [dedupAux]
  | cons k ks ih =>
    intro acc hnd
    rw [List.foldl_cons]
    by_cases hk : k ∈ acc.map Prod.fst
    · have hb := bumpCount_mem (k := k) hnd hk
      have hcomp : (Prod.fst ∘ fun p : String × Nat => if p.1 = k then (p.1, p.2 + 1) else p) =
          Prod.fst := by
        funext p; by_cases h : p.1 = k <;> simp [h]
      have hfst : (bumpCount k acc).map Prod.fst = acc.map Prod.fst := by
        rw [hb, List.map_map, hcomp]
      have hnd2 : ((bumpCount k acc).map Prod.fst).Nodup := by rw [hfst]; exact hnd
      rw [ih _ hnd2, hfst, dedupAux, if_pos (List.elem_iff.mpr hk)]
      congr 1
      · rw [hb, List.map_map]
        apply List.map_congr_left
        intro p hp
        obtain ⟨p1, p2⟩ := p
        simp only [Function.comp_apply]
        by_cases hpk : p1 = k
        · subst hpk
          rw [if_pos rfl]
          refine Prod.ext rfl ?_
          simp only [List.count_cons, beq_self_eq_true, if_true]
          omega
        · rw [if_neg hpk]
          refine Prod.ext rfl ?_
          simp [List.count_cons, hpk, Ne.symm hpk]
      · apply List.map_congr_left
        intro k2 hk2
        obtain ⟨hns, _⟩ := dedupAux_mem _ _ hk2
        have hne : k2 ≠ k := fun he => hns (he ▸ hk)
        simp [List.count_cons, hne]
    · have hb := bumpCount_not_mem (k := k) hk
      have hfst : (bumpCount k acc).map Prod.fst = acc.map Prod.fst ++ [k] := by
        rw [hb]; simp
      have hnd2 : ((bumpCount k acc).map Prod.fst).Nodup := by
        rw [hfst, List.nodup_append]
        exact ⟨hnd, List.nodup_singleton _, by simpa using fun h => hk h⟩
      rw [ih _ hnd2, hfst, dedupAux, if_neg (fun hc => hk (List.elem_iff.mp hc)), hb]
      simp only [List.map_append, List.map_cons, List.map_nil, List.append_assoc,
        List.singleton_append, List.nil_append]
      congr 1
      · apply List.map_congr_left
        intro p hp
        have hne : p.1 ≠ k := fun he => hk (he ▸ List.mem_map_of_mem Prod.fst hp)
        refine Prod.ext rfl ?_
        simp [List.count_cons, hne, Ne.symm hne]
      · congr 1
        · refine Prod.ext rfl ?_
          simp only [List.count_cons, beq_self_eq_true, if_true]
          omega
        · apply List.map_congr_left
          intro k2 hk2
          obtain ⟨hns, _⟩ := dedupAux_mem _ _ hk2
          have hne : k2 ≠ k := by
            intro he
            subst he
            exact hns (by simp)
          simp [List.count_cons, hne, Ne.symm hne]

theorem countsFold_nil_eq (ks : List String) :
    ks.foldl (fun a k => bumpCount k a) [] =
      (dedupFirst ks).map (fun k => (k, ks.count k)) := by
  simpa [dedupFirst] using countsFold_eq ks [] (by simp)

theorem find?_congr_mem {α : Type} (f g : α → Bool) :
    ∀ l : List α, (∀ x ∈ l, f x = g x) → l.find? f = l.find? g := by
  intro l
  induction l with
  | nil => intro _; rfl
  | cons a rest ih =>
    intro h
    rw [List.find?_cons, List.find?_cons, h a (List.mem_cons_self _ _)]
    split
    · rfl
    · exact ih (fun x hx => h x (List.mem_cons_of_mem _ hx))

/-- Python `max(items, key=snd)` over a nonempty item list is the first
item whose count no item exceeds. -/
theorem pyMaxSnd_eq_find? :
    ∀ (L : List (String × Nat)) (q : String × Nat),
      (q :: L).find? (fun p => (q :: L).all (fun r => r.2 ≤ p.2)) = some (pyMaxSnd q L) := by
  intro L
  induction L with
  | nil =>
    intro q
    rw [pyMaxSnd, List.find?_cons_of_pos]
    simp
  | cons p L2 ih =>
    intro q
    rw [pyMaxSnd]
    by_cases hlt : q.2 < p.2
    · rw [if_pos hlt]
      have hq : ¬ ((q :: p :: L2).all (fun r => r.2 ≤ q.2)) = true := by
        simp only [List.all_eq_true]
        push_neg
        exact ⟨p, List.mem_cons_of_mem _ (List.mem_cons_self _ _), by simpa using hlt⟩
      rw [List.find?_cons_of_neg _ (by simpa using hq)]
      rw [← ih p]
      apply find?_congr_mem
      intro x hx
      rw [Bool.eq_iff_iff]
      simp only [List.all_eq_true, decide_eq_true_eq]
      constructor
      · intro hall r hr
        exact hall r (List.mem_cons_of_mem _ hr)
      · intro hall r hr
        rcases List.mem_cons.mp hr with rfl | hr
        · have := hall p (List.mem_cons_self _ _)
          omega
        · exact hall r hr
    · rw [if_neg hlt]
      push_neg at hlt
      by_cases hq : ((q :: p :: L2).all (fun r => r.2 ≤ q.2)) = true
      · rw [List.find?_cons_of_pos _ (by simpa using hq)]
        have hq2 : ((q :: L2).all (fun r => r.2 ≤ q.2)) = true := by
          simp only [List.all_eq_true, decide_eq_true_eq] at hq ⊢
          intro r hr
          rcases List.mem_cons.mp hr with rfl | hr
          · exact le_refl _
          · exact hq r (List.mem_cons_of_mem _ (List.mem_cons_of_mem _ hr))
        have hih := ih q
        rw [List.find?_cons_of_pos _ (by simpa using hq2)] at hih
        exact hih
      · rw [List.find?_cons_of_neg _ (by simpa using hq)]
        have hp : ¬ ((q :: p :: L2).all (fun r => r.2 ≤ p.2)) = true := by
          intro hallp
          apply hq
          simp only [List.all_eq_true, decide_eq_true_eq] at hallp ⊢
          intro r hr
          have := hallp r hr
          omega
        rw [List.find?_cons_of_neg _ (by simpa using hp)]
        have hqfail : ¬ ((q :: L2).all (fun r => r.2 ≤ q.2)) = true := by
          intro hall2
          apply hq
          simp only [List.all_eq_true, decide_eq_true_eq] at hall2 ⊢
          intro r hr
          rcases List.mem_cons.mp hr with rfl | hr
          · exact le_refl _
          · rcases List.mem_cons.mp hr with rfl | hr
            · exact hlt
            · exact hall2 r (List.mem_cons_of_mem _ hr)
        have hih := ih q
        rw [List.find?_cons_of_neg _ (by simpa using hqfail)] at hih
        rw [← hih]
        apply find?_congr_mem
        intro x hx
        rw [Bool.eq_iff_iff]
        simp only [List.all_eq_true, decide_eq_true_eq]
        constructor
        · intro hall r hr
          rcases List.mem_cons.mp hr with rfl | hr
          · exact hall r (List.mem_cons_self _ _)
          · exact hall r (List.mem_cons_of_mem _ (List.mem_cons_of_mem _ hr))
        · intro hall r hr
          rcases List.mem_cons.mp hr with rfl | hr
          · exact hall r (List.mem_cons_self _ _)
          · rcases List.mem_cons.mp hr with rfl | hr
            · have := hall q (List.mem_cons_self _ _)
              omega
            · exact hall r (List.mem_cons_of_mem _ hr)

theorem find?_map_eq {α β : Type} (f : α → β) (p : β → Bool) :
    ∀ l : List α, (l.map f).find? p = (l.find? (fun a => p (f a))).map f := by
  intro l
  induction l with
  | nil => rfl
  | cons a rest ih =>
    rw [List.map_cons, List.find?_cons, List.find?_cons]
    split
    · rfl
    · exact ih

theorem mem_dedupAux_of_mem {k2 : String} :
    ∀ (ks seen : List String), k2 ∈ ks → k2 ∈ seen ∨ k2 ∈ dedupAux seen ks := by
  intro ks
  induction ks with
  | nil => intro seen h; simp at h
  | cons k rest ih =>
    intro seen h
    rw [dedupAux]
    rcases List.mem_cons.mp h with rfl | h
    · by_cases hc : seen.contains k2 = true
      · exact Or.inl (List.elem_iff.mp hc)
      · rw [if_neg hc]
        exact Or.inr (List.mem_cons_self _ _)
    · by_cases hc : seen.contains k = true
      · rw [if_pos hc]
        exact ih seen h
      · rw [if_neg hc]
        rcases ih (seen ++ [k]) h with hmem | hmem
        · rcases List.mem_append.mp hmem with hmem | hmem
          · exact Or.inl hmem
          · exact Or.inr (by simp only [List.mem_singleton] at hmem; exact hmem ▸ List.mem_cons_self _ _)
        · exact Or.inr (List.mem_cons_of_mem _ hmem)

theorem mem_dedupFirst_iff {k2 : String} {keys : List String} :
    k2 ∈ dedupFirst keys ↔ k2 ∈ keys := by
  constructor
  · intro h
    exact (dedupAux_mem keys [] h).2
  · intro h
    rcases mem_dedupAux_of_mem keys [] h with hmem | hmem
    · simp at hmem
    · exact hmem

/-- C8: The `vote` aggregation strategy returns the most frequent
result value (as its voting-key string `str(task.result)`) among the
subtasks whose status is `COMPLETED`, ties broken in favor of the value
first encountered in list order, and `None` when no subtask succeeded:
the source's count-dict plus `max` computation equals the spec-worded
`voteSpec`. -/
theorem C8_vote_most_frequent (tasks : List DelegatedTask) :
    aggregate_results tasks "vote" = AggResult.ofStrOpt (voteSpec (successKeys tasks)) ∧
    (successKeys tasks = [] → aggregate_results tasks "vote" = AggResult.ofStrOpt none) := by
  have hmain : aggregate_results tasks "vote" =
      AggResult.ofStrOpt (voteSpec (successKeys tasks)) := by
    rw [aggregate_results, successKeys]
    rw [if_neg (by decide), if_pos rfl]
    cases hs : tasks.filter (fun t => t.status == TaskStatus.completed) with
    | nil => rfl
    | cons t ts =>
      set keys := (t :: ts).map (fun t => pyStrResult t.result) with hkeys
      have hfold : (t :: ts).foldl (fun acc t => bumpCount (pyStrResult t.result) acc) [] =
          keys.foldl (fun acc k => bumpCount k acc) [] := by
        rw [hkeys, List.foldl_map]
      have hcounts : (t :: ts).foldl (fun acc t => bumpCount (pyStrResult t.result) acc) [] =
          (dedupFirst keys).map (fun k => (k, keys.count k)) := by
        rw [hfold, countsFold_nil_eq]
      have hded : dedupFirst keys =
          pyStrResult t.result :: dedupAux [pyStrResult t.result] (ts.map (fun t => pyStrResult t.result)) := by
        rw [hkeys, dedupFirst, List.map_cons, dedupAux, if_neg (by simp)]
        rfl
      -- the counts list is nonempty
      rw [hcounts, hded, List.map_cons]
      -- LHS: ofStrOpt (some (pyMaxSnd headPair restPairs).1)
      set f := fun k => (k, keys.count k) with hf
      set d2 := dedupAux [pyStrResult t.result] (ts.map (fun t => pyStrResult t.result)) with hd2
      have hfind := pyMaxSnd_eq_find? (d2.map f) (f (pyStrResult t.result))
      have hmap : (f (pyStrResult t.result) :: d2.map f) =
          (pyStrResult t.result :: d2).map f := by rw [List.map_cons]
      rw [hmap] at hfind
      rw [find?_map_eq] at hfind
      -- transfer the predicate to the voteSpec predicate
      have hpredeq : ∀ k ∈ pyStrResult t.result :: d2,
          ((((pyStrResult t.result :: d2).map f).all (fun r => r.2 ≤ (f k).2)) : Bool) =
            (keys.all (fun k2 => keys.count k2 ≤ keys.count k)) := by
        intro k _
        rw [Bool.eq_iff_iff]
        simp only [List.all_eq_true, List.mem_map, decide_eq_true_eq, forall_exists_index,
          and_imp, forall_apply_eq_imp_iff₂]
        constructor
        · intro hall k2 hk2
          have hk2d : k2 ∈ pyStrResult t.result :: d2 := by
            rw [← hded]
            exact mem_dedupFirst_iff.mpr hk2
          exact hall k2 hk2d
        · intro hall k2 hk2
          have : k2 ∈ keys := by
            rw [← hded] at hk2
            exact mem_dedupFirst_iff.mp hk2
          exact hall k2 this
      have hcong := find?_congr_mem
        (fun a => ((pyStrResult t.result :: d2).map f).all (fun r => r.2 ≤ (f a).2))
        (fun k => keys.all (fun k2 => keys.count k2 ≤ keys.count k))
        (pyStrResult t.result :: d2) hpredeq
      rw [hcong] at hfind
      -- voteSpec is that find?
      have hvs : voteSpec keys =
          (pyStrResult t.result :: d2).find?
            (fun k => keys.all (fun k2 => keys.count k2 ≤ keys.count k)) := by
        rw [voteSpec, hded]
      obtain ⟨w, hw⟩ : ∃ w, (pyStrResult t.result :: d2).find?
          (fun k => keys.all (fun k2 => keys.count k2 ≤ keys.count k)) = some w := by
        cases hfw : (pyStrResult t.result :: d2).find?
            (fun k => keys.all (fun k2 => keys.count k2 ≤ keys.count k)) with
        | none => rw [hfw] at hfind; simp at hfind
        | some w => exact ⟨w, rfl⟩
      rw [hw] at hfind
      simp only [Option.map_some', Option.map_some] at hfind
      have hpm : pyMaxSnd (f (pyStrResult t.result)) (d2.map f) = f w := by
        exact Option.some.inj hfind.symm
      rw [hvs, hw]
      show AggResult.ofStrOpt (some (pyMaxSnd (f (pyStrResult t.result)) (d2.map f)).1) =
        AggResult.ofStrOpt (some w)
      rw [hpm]
  exact ⟨hmain, fun h => by rw [hmain, h]; rfl⟩

def tasksC8 : List DelegatedTask :=
  [{ task_id := "t1", agent_type := .code, description := "s1", input_data := [],
     status := .completed, result := none },
   { task_id := "t2", agent_type := .test, description := "s2", input_data := [],
     status := .completed, result := some [("a", "1")] },
   { task_id := "t3", agent_type := .debug, description := "s3", input_data := [],
     status := .completed, result := none },
   { task_id := "t4", agent_type := .review, description := "s4", input_data := [],
     status := .failed, result := some [("a", "1")] }]

/-- C8 witness: among three completed subtasks with values None, a dict and
None, the vote returns the most frequent value's key string. -/
theorem C8_witness : aggregate_results tasksC8 "vote" = AggResult.ofStrOpt (some "None") := by
  have h := (C8_vote_most_frequent tasksC8).1
  exact h.trans (by decide)

end Daytona
